import Mathlib

/-!
Verification of the news enrichment pipeline of the pubsub_try repository.

The definitions below are shallow embeddings of the Python sources:
Python floats are modelled as exact rationals, wall-clock instants as
rationals (seconds, as returned by time.time), fallible operations as
Option or Except values, and external effects (news provider responses,
delivered subscriber counts of the bus) as explicit oracle parameters.
-/

namespace PubsubTry

/-! ## Lexicon scorer: src/services/news_analyzer/sentiment_analyzer.py -/

/-- The word-to-weight map built in OptimizedSentimentAnalyzer.__init__:
every member of positive_words gets weight 2 when it is in the strong
check list (bullish, surge, soar, rally, boom, breakthrough, record) and
1 otherwise; every member of negative_words gets -2 when it is in the
strong check list (bearish, crash, plummet, collapse, bankruptcy,
scandal) and -1 otherwise. -/
def wordScoresList : List (String × Int) :=
  [ ("bullish", 2), ("surge", 2), ("soar", 2), ("rally", 2), ("boom", 2),
    ("breakthrough", 2), ("record", 2),
    ("all-time high", 1), ("beat estimates", 1), ("exceed expectations", 1),
    ("strong earnings", 1), ("profit surge", 1),
    ("gain", 1), ("rise", 1), ("up", 1), ("positive", 1), ("growth", 1),
    ("increase", 1), ("buy", 1), ("upgrade", 1), ("outperform", 1),
    ("strong", 1), ("solid", 1), ("good", 1), ("better", 1), ("improved", 1),
    ("optimistic", 1), ("confident", 1), ("recover", 1), ("rebound", 1),
    ("momentum", 1), ("expansion", 1),
    ("bearish", -2), ("crash", -2), ("plummet", -2), ("collapse", -2),
    ("bankruptcy", -2), ("scandal", -2),
    ("fraud", -1), ("miss estimates", -1), ("disappointing", -1),
    ("worst", -1), ("crisis", -1), ("recession", -1),
    ("loss", -1), ("fall", -1), ("down", -1), ("negative", -1),
    ("decline", -1), ("decrease", -1), ("sell", -1), ("downgrade", -1),
    ("underperform", -1), ("weak", -1), ("poor", -1), ("bad", -1),
    ("worse", -1), ("concern", -1), ("worry", -1),
    ("risk", -1), ("volatile", -1), ("uncertainty", -1), ("challenge", -1),
    ("struggle", -1) ]

/-- Lookup in an association list with string keys, as a Python dict read. -/
def lookupAssoc {α : Type} : List (String × α) → String → Option α
  | [], _ => none
  | (k, v) :: rest, key => if k = key then some v else lookupAssoc rest key

/-- Membership test of word_scores. -/
def wordScore (w : String) : Option Int :=
  lookupAssoc wordScoresList w

/-- The ASCII whitespace class matched by the regex escape backslash-s. -/
def isPySpace (c : Char) : Bool :=
  c = ' ' || c = '\t' || c = '\n' || c = '\x0b' || c = '\x0c' || c = '\r'

/-- ASCII letter test, the character class a-zA-Z of text_cleaner. -/
def isAsciiLetter (c : Char) : Bool :=
  ('a' ≤ c && c ≤ 'z') || ('A' ≤ c && c ≤ 'Z')

/-- str.split with no argument: split on whitespace runs, dropping
empty pieces.  The accumulator holds the current token reversed. -/
def pySplitAux : List Char → List Char → List (List Char)
  | [], acc => if acc.isEmpty then [] else [acc.reverse]
  | c :: cs, acc =>
    if isPySpace c then
      if acc.isEmpty then pySplitAux cs [] else acc.reverse :: pySplitAux cs []
    else pySplitAux cs (c :: acc)

/-- Python str.split() on a string. -/
def pySplit (s : String) : List String :=
  (pySplitAux s.data []).map String.mk

/-- OptimizedSentimentAnalyzer._clean_text: lower-case, replace every
character outside a-zA-Z and whitespace by a space, collapse whitespace
runs to single spaces and strip the ends (the latter two are
sub(backslash-s+) and strip, equivalent to joining the whitespace
separated chunks with single spaces). -/
def cleanText (s : String) : String :=
  let lowered := s.data.map (fun c =>
    let lc := c.toLower
    if isAsciiLetter lc || isPySpace lc then lc else ' ')
  String.mk (List.intercalate [' '] (pySplitAux lowered []))

/-- Bump the counter of a word in a Counter, preserving insertion order
(Python Counter item assignment). -/
def bumpCount : List (String × Nat) → String → List (String × Nat)
  | [], w => [(w, 1)]
  | (k, c) :: rest, w =>
    if k = w then (k, c + 1) :: rest else (k, c) :: bumpCount rest w

/-- The word loop of _calculate_sentiment_score: accumulate the integer
score and the matched-word Counter over the token list. -/
def scoreFold : List String → Int × List (String × Nat) → Int × List (String × Nat)
  | [], acc => acc
  | w :: ws, acc =>
    match wordScore w with
    | some s => scoreFold ws (acc.1 + s, bumpCount acc.2 w)
    | none => scoreFold ws acc

/-- max(-1, min(1, x)) from _calculate_sentiment_score. -/
def pyClamp (x : ℚ) : ℚ := max (-1) (min 1 x)

/-- OptimizedSentimentAnalyzer._calculate_sentiment_score on already
cleaned text: split into words, sum the lexicon weights of matched words
while counting them, then normalize by the word count, scale by 10 and
clamp to [-1, 1]; zero words give score 0. -/
def calculateSentimentScore (text : String) : ℚ × List (String × Nat) :=
  let words := pySplit text
  let r := scoreFold words (0, [])
  if 0 < words.length then
    (pyClamp ((r.1 : ℚ) / (words.length : ℚ) * 10), r.2)
  else
    (0, r.2)

/-- The scorer contract of the spec: clean then score. -/
def scoreText (s : String) : ℚ × List (String × Nat) :=
  calculateSentimentScore (cleanText s)

/-- The token list a text is scored over. -/
def tokensOf (s : String) : List String :=
  pySplit (cleanText s)

/-! ## Batch sentiment analysis -/

/-- Modelled from the spec: the NewsArticle record of section 3 (headline,
summary, url, provider-native numeric timestamp, source).  The Python
class NewsData is imported from shared.models by the fetcher and the
analyzer but its declaration is missing from the sources. -/
structure NewsData where
  headline : String
  summary : String
  url : String
  datetime : Int
  source : String
deriving DecidableEq, Repr

/-- The dictionary returned by analyze_news_sentiment. -/
structure SentimentResultModel where
  sentimentScore : ℚ
  sentimentLabel : String
  articleCount : Nat
  positiveArticles : Nat
  negativeArticles : Nat
  neutralArticles : Nat
  topKeywords : List String
  confidence : ℚ
deriving DecidableEq, Repr

/-- Python round to the nearest integer, ties to even. -/
def roundHalfEven (q : ℚ) : ℤ :=
  let f := q.floor
  let r := q - (f : ℚ)
  if r < 1 / 2 then f
  else if 1 / 2 < r then f + 1
  else if f % 2 = 0 then f else f + 1

/-- Python round(x, 3): keep three decimal digits, ties to even. -/
def round3 (q : ℚ) : ℚ :=
  (roundHalfEven (q * 1000) : ℚ) / 1000

/-- Add one matched-word Counter into the accumulated Counter
(Counter.update), iterating the items in their insertion order. -/
def addCount : List (String × Nat) → String → Nat → List (String × Nat)
  | [], w, n => [(w, n)]
  | (k, c) :: rest, w, n =>
    if k = w then (k, c + n) :: rest else (k, c) :: addCount rest w n

/-- Fold a list of keyword counts into a Counter. -/
def addCounts (m : List (String × Nat)) (kws : List (String × Nat)) : List (String × Nat) :=
  kws.foldl (fun acc p => addCount acc p.1 p.2) m

/-- Stable insertion into a list sorted by strictly decreasing count:
an element goes after every earlier element with a count at least as
large, which reproduces the tie order of Counter.most_common. -/
def insertDesc (p : String × Nat) : List (String × Nat) → List (String × Nat)
  | [] => [p]
  | q :: qs => if q.2 < p.2 then p :: q :: qs else q :: insertDesc p qs

/-- Counter.most_common: entries sorted by count descending, ties kept
in insertion order. -/
def mostCommon (l : List (String × Nat)) : List (String × Nat) :=
  l.foldl (fun acc p => insertDesc p acc) []

/-- The text analyzed for one article: f-string headline-space-summary. -/
def articleText (a : NewsData) : String :=
  a.headline ++ " " ++ a.summary

/-- The per-article sentiment score used by the batch loop. -/
def perArticleScore (a : NewsData) : ℚ :=
  (scoreText (articleText a)).1

/-- The accumulator of the article loop of analyze_news_sentiment. -/
structure BatchAcc where
  totalScore : ℚ
  articleScores : List ℚ
  allKeywords : List (String × Nat)
  positiveCount : Nat
  negativeCount : Nat
  neutralCount : Nat
deriving DecidableEq, Repr

/-- One iteration of the article loop: score the combined text, extend
the score list, merge the keyword counts, and classify the article by
the if/elif/else chain on 0.1 and -0.1. -/
def batchStep (acc : BatchAcc) (a : NewsData) : BatchAcc :=
  let s := perArticleScore a
  let kws := (scoreText (articleText a)).2
  { totalScore := acc.totalScore + s
    articleScores := acc.articleScores ++ [s]
    allKeywords := addCounts acc.allKeywords kws
    positiveCount := if 1 / 10 < s then acc.positiveCount + 1 else acc.positiveCount
    negativeCount :=
      if 1 / 10 < s then acc.negativeCount
      else if s < -(1 / 10) then acc.negativeCount + 1 else acc.negativeCount
    neutralCount :=
      if 1 / 10 < s then acc.neutralCount
      else if s < -(1 / 10) then acc.neutralCount else acc.neutralCount + 1 }

/-- The article loop. -/
def batchFold : List NewsData → BatchAcc → BatchAcc
  | [], acc => acc
  | a :: rest, acc => batchFold rest (batchStep acc a)

/-- OptimizedSentimentAnalyzer.analyze_news_sentiment: the empty list
returns the fixed zero/neutral dictionary; otherwise the loop result is
aggregated with avg = total/count, the label thresholds 0.2 and -0.2,
a confidence of max(0, 1 - population variance), the five most common
keywords, and score and confidence rounded to three decimals. -/
def analyzeNewsSentiment (newsArticles : List NewsData) : SentimentResultModel :=
  if newsArticles.isEmpty then
    { sentimentScore := 0, sentimentLabel := "neutral", articleCount := 0
      positiveArticles := 0, negativeArticles := 0, neutralArticles := 0
      topKeywords := [], confidence := 0 }
  else
    let acc := batchFold newsArticles ⟨0, [], [], 0, 0, 0⟩
    let avg := acc.totalScore / (newsArticles.length : ℚ)
    let label :=
      if 1 / 5 < avg then "positive"
      else if avg < -(1 / 5) then "negative"
      else "neutral"
    let variance :=
      (acc.articleScores.map (fun s => (s - avg) ^ 2)).sum / (acc.articleScores.length : ℚ)
    let confidence := max 0 (1 - variance)
    { sentimentScore := round3 avg
      sentimentLabel := label
      articleCount := newsArticles.length
      positiveArticles := acc.positiveCount
      negativeArticles := acc.negativeCount
      neutralArticles := acc.neutralCount
      topKeywords := ((mostCommon acc.allKeywords).take 5).map Prod.fst
      confidence := round3 confidence }

/-- The per-article score list named in the spec formulas. -/
def batchScores (newsArticles : List NewsData) : List ℚ :=
  newsArticles.map perArticleScore

/-- The spec formula sum(scores)/count. -/
def batchAvg (newsArticles : List NewsData) : ℚ :=
  (batchScores newsArticles).sum / (newsArticles.length : ℚ)

/-- The spec formula for the population variance of the per-article
scores around their mean. -/
def batchVariance (newsArticles : List NewsData) : ℚ :=
  ((batchScores newsArticles).map (fun s => (s - batchAvg newsArticles) ^ 2)).sum /
    (newsArticles.length : ℚ)

/-! ## News fetcher: src/services/news_analyzer/news_fetcher.py -/

/-- Python dict item assignment on an association list: replace the
value in place when the key exists, append otherwise. -/
def updateAssoc {α : Type} : List (String × α) → String → α → List (String × α)
  | [], k, v => [(k, v)]
  | (k', v') :: rest, k, v =>
    if k' = k then (k, v) :: rest else (k', v') :: updateAssoc rest k v

/-- The 5 minute cache TTL of FinnhubNewsFetcher. -/
def cacheTTL : ℚ := 300

/-- The 1 second minimum interval between outbound calls. -/
def minCallInterval : ℚ := 1

/-- FinnhubNewsFetcher._get_cache_key: the f-string
symbol:category:int(now / cache_ttl). -/
def getCacheKey (symbol category : String) (now : ℚ) : String :=
  symbol ++ ":" ++ category ++ ":" ++ toString (now / cacheTTL).floor

/-- FinnhubNewsFetcher._rate_limit, idealized so that sleeping takes
exactly the requested time: given the recorded last call time and the
current instant, return the slept duration together with the new last
call time (the instant right after the sleep). -/
def rateLimit (lastCall now : ℚ) : ℚ × ℚ :=
  if now - lastCall < minCallInterval then
    (minCallInterval - (now - lastCall), now + (minCallInterval - (now - lastCall)))
  else
    (0, now)

/-- The mutable state of a FinnhubNewsFetcher instance. -/
structure FetcherState where
  newsCache : List (String × List NewsData)
  lastCallTime : ℚ
  apiCallsCount : Nat
  cacheHits : Nat
deriving DecidableEq, Repr

/-- The observable outcome of one fetch call: the returned articles, the
new fetcher state, whether an outbound request was issued, and how long
the rate limiter slept. -/
structure FetchResult where
  articles : List NewsData
  state : FetcherState
  requestIssued : Bool
  waited : ℚ
deriving DecidableEq, Repr

/-- A raw provider item: some article when the item parses into the
NewsData model, none when building the model raises and the item is
skipped. -/
abbrev RawItem := Option NewsData

/-- FinnhubNewsFetcher.get_company_news.  The provider interaction is an
oracle: an error value covers a network failure, a non-success status
from raise_for_status, or an unparseable body, in which case the method
logs and returns the empty list; an ok value carries the raw item list,
of which at most the first 10 are parsed, items failing to parse being
skipped individually.  A cache hit returns the stored list with no
request and no rate-limit sleep. -/
def getCompanyNews (st : FetcherState) (symbol : String) (now : ℚ)
    (resp : Except Unit (List RawItem)) : FetchResult :=
  let key := getCacheKey symbol "company_news" now
  match lookupAssoc st.newsCache key with
  | some cached =>
    ⟨cached, { st with cacheHits := st.cacheHits + 1 }, false, 0⟩
  | none =>
    let rl := rateLimit st.lastCallTime now
    match resp with
    | .error _ => ⟨[], { st with lastCallTime := rl.2 }, true, rl.1⟩
    | .ok items =>
      let newsList := (items.take 10).filterMap id
      ⟨newsList,
       { st with lastCallTime := rl.2
                 apiCallsCount := st.apiCallsCount + 1
                 newsCache := updateAssoc st.newsCache key newsList },
       true, rl.1⟩

/-- FinnhubNewsFetcher.get_market_news: same shape with the key built
from the literal market and the category, and the first limit items. -/
def getMarketNews (st : FetcherState) (category : String) (limit : Nat) (now : ℚ)
    (resp : Except Unit (List RawItem)) : FetchResult :=
  let key := getCacheKey "market" category now
  match lookupAssoc st.newsCache key with
  | some cached =>
    ⟨cached, { st with cacheHits := st.cacheHits + 1 }, false, 0⟩
  | none =>
    let rl := rateLimit st.lastCallTime now
    match resp with
    | .error _ => ⟨[], { st with lastCallTime := rl.2 }, true, rl.1⟩
    | .ok items =>
      let newsList := (items.take limit).filterMap id
      ⟨newsList,
       { st with lastCallTime := rl.2
                 apiCallsCount := st.apiCallsCount + 1
                 newsCache := updateAssoc st.newsCache key newsList },
       true, rl.1⟩

/-- The instants at which a sequence of outbound calls actually fire:
each call arrives at its listed instant and is delayed by the shared
rate limiter, whose recorded last call time is threaded through. -/
def runCalls (lastCall : ℚ) : List ℚ → List ℚ
  | [] => []
  | t :: ts => (rateLimit lastCall t).2 :: runCalls (rateLimit lastCall t).2 ts

/-- Arrival instants are physically possible: each call reads the clock
no earlier than the recorded last call time at that point (time moves
forward across the preceding sleep). -/
def arrivalsOk (lastCall : ℚ) : List ℚ → Prop
  | [] => True
  | t :: ts => lastCall ≤ t ∧ arrivalsOk (rateLimit lastCall t).2 ts

/-! ## Consumer: src/services/news_analyzer/consumer.py and
src/shared/pubsub.py and the NewsAlert model of src/shared/models.py -/

/-- The configured quality thresholds of NewsConsumer.__init__. -/
def minChangePercent : ℚ := 3

/-- The minimum volume threshold. -/
def minVolumeThreshold : ℤ := 50000

/-- The 30 minute dedup window, in seconds. -/
def dedupWindow : ℚ := 1800

/-- The consumer state observable through get_performance_stats. -/
structure ConsumerState where
  processedCount : Nat
  publishedCount : Nat
  lastProcessedTime : Option ℚ
  recentlyProcessed : List (String × ℚ)
deriving DecidableEq, Repr

/-- A well-formed inbound market event payload. -/
structure MarketEventIn where
  symbol : String
  price : ℚ
  changePercent : ℚ
  volume : ℤ
deriving DecidableEq, Repr

/-- NewsConsumer._should_process_event: reject when the absolute change
is below min_change_percent, when the volume is below
min_volume_threshold, or when the symbol was recorded less than
dedup_window seconds before the current instant. -/
def shouldProcessEvent (st : ConsumerState) (ev : MarketEventIn) (now : ℚ) : Bool :=
  if |ev.changePercent| < minChangePercent then false
  else if ev.volume < minVolumeThreshold then false
  else
    match lookupAssoc st.recentlyProcessed ev.symbol with
    | some last => if now - last < dedupWindow then false else true
    | none => true

/-- The payload type actually published: the pydantic NewsAlert model of
shared/models.py declares only these six fields, so the news_count and
top_headlines keyword arguments passed by the consumer are silently
dropped by pydantic and never appear in the published dictionary. -/
structure NewsAlertModel where
  symbol : String
  price : ℚ
  changePercent : ℚ
  newsSentiment : ℚ
  newsSummary : String
  timestamp : ℚ
deriving DecidableEq, Repr

/-- Construction of a NewsAlert with pydantic field validation: symbol
length in [1, 10], price strictly positive, news_sentiment in [0, 1]
(the declared bounds ge=0 and le=1), news_summary of at most 500
characters.  Validation failure raises, modelled as none.  The two
trailing arguments are the extra keyword arguments the consumer passes;
the model has no such fields and pydantic ignores them. -/
def mkNewsAlert (symbol : String) (price changePercent newsSentiment : ℚ)
    (newsSummary : String) (timestamp : ℚ)
    (_newsCount : Nat) (_topHeadlines : List String) : Option NewsAlertModel :=
  if 1 ≤ symbol.length ∧ symbol.length ≤ 10 ∧ 0 < price ∧
     0 ≤ newsSentiment ∧ newsSentiment ≤ 1 ∧ newsSummary.length ≤ 500 then
    some ⟨symbol, price, changePercent, newsSentiment, newsSummary, timestamp⟩
  else none

/-- Truncation by Python slicing, counted in characters. -/
def strTake (s : String) (n : Nat) : String :=
  String.mk (s.data.take n)

/-- NewsConsumer._create_news_summary: the emoji template chosen by the
label, the first three top keywords, and a 400 character cap. -/
def createNewsSummary (newsArticles : List NewsData) (sent : SentimentResultModel) : String :=
  let articleCount := newsArticles.length
  if articleCount = 0 then "No recent news available"
  else
    let base :=
      if sent.sentimentLabel = "positive" then
        "📈 " ++ toString articleCount ++ " positive news articles"
      else if sent.sentimentLabel = "negative" then
        "📉 " ++ toString articleCount ++ " negative news articles"
      else
        "📊 " ++ toString articleCount ++ " neutral news articles"
    let withKw :=
      if sent.topKeywords.isEmpty then base
      else base ++ ". Key topics: " ++ String.intercalate ", " (sent.topKeywords.take 3)
    strTake withKw 400

/-- NewsConsumer._cleanup_recent_cache: delete every entry strictly
older than the dedup window. -/
def cleanupRecent (m : List (String × ℚ)) (now : ℚ) : List (String × ℚ) :=
  m.filter (fun p => !(decide (now - p.2 > dedupWindow)))

/-- SimplePubSub.publish reduced to its return value: none when the
redis call raised (publish catches it and returns False), some n when
the bus delivered to n subscribers; the method returns n greater than 0. -/
def pubSuccess : Option Nat → Bool
  | none => false
  | some n => decide (0 < n)

/-- The instants read during one _process_market_event call: the gate
check clock, the dedup mark clock, the cleanup clock, and the wall
clock used for the alert timestamp and last_processed_time. -/
structure StepTimes where
  tGate : ℚ
  tMark : ℚ
  tClean : ℚ
  tNow : ℚ
deriving DecidableEq, Repr

/-- What one consumer step did: the new state, whether the fetcher was
invoked, and the payload handed to publish when one was. -/
structure StepResult where
  state : ConsumerState
  fetchCalled : Bool
  publishedPayload : Option NewsAlertModel
deriving DecidableEq, Repr

/-- The NewsAlert construction of lines 118 to 127 of the consumer: the
sentiment result feeds the model constructor together with the summary,
the first three headlines in fetch order and the current instant. -/
def buildAlert (ev : MarketEventIn) (tNow : ℚ) (newsArticles : List NewsData) :
    Option NewsAlertModel :=
  mkNewsAlert ev.symbol ev.price ev.changePercent
    (analyzeNewsSentiment newsArticles).sentimentScore
    (createNewsSummary newsArticles (analyzeNewsSentiment newsArticles)) tNow
    (analyzeNewsSentiment newsArticles).articleCount
    ((newsArticles.take 3).map NewsData.headline)

/-- NewsConsumer._process_market_event.  The fetched article list and
the publish outcome are oracle parameters.  A gate rejection returns
before the fetch; an empty fetch returns before scoring; a pydantic
validation failure while building the NewsAlert raises into the outer
handler, so nothing after it runs; otherwise publish is attempted and
only a truthy outcome increments published_count, records the dedup
timestamp and purges stale entries, after which processed_count and
last_processed_time are always updated. -/
def processMarketEvent (st : ConsumerState) (ev : MarketEventIn) (tm : StepTimes)
    (newsArticles : List NewsData) (pubOutcome : Option Nat) : StepResult :=
  if shouldProcessEvent st ev tm.tGate = false then ⟨st, false, none⟩
  else if newsArticles.isEmpty then ⟨st, true, none⟩
  else
    match buildAlert ev tm.tNow newsArticles with
    | none => ⟨st, true, none⟩
    | some alert =>
      let st1 :=
        if pubSuccess pubOutcome then
          { st with
              publishedCount := st.publishedCount + 1
              recentlyProcessed :=
                cleanupRecent (updateAssoc st.recentlyProcessed ev.symbol tm.tMark) tm.tClean }
        else st
      ⟨{ st1 with
           processedCount := st1.processedCount + 1
           lastProcessedTime := some tm.tNow }, true, some alert⟩

/-! ## Helper lemmas -/

theorem lookupAssoc_updateAssoc_self {α : Type} (m : List (String × α)) (k : String) (v : α) :
    lookupAssoc (updateAssoc m k v) k = some v := by
  induction m with
  | nil => simp [updateAssoc, lookupAssoc]
  | cons p rest ih =>
    obtain ⟨k', v'⟩ := p
    by_cases h : k' = k <;> simp [updateAssoc, lookupAssoc, h, ih]

theorem lookupAssoc_updateAssoc_ne {α : Type} (m : List (String × α)) (k key : String) (v : α)
    (h : key ≠ k) : lookupAssoc (updateAssoc m k v) key = lookupAssoc m key := by
  have h' : ¬ k = key := fun e => h e.symm
  induction m with
  | nil => simp [updateAssoc, lookupAssoc, h']
  | cons p rest ih =>
    obtain ⟨k', v'⟩ := p
    by_cases hk : k' = k
    · subst hk
      simp [updateAssoc, lookupAssoc, h']
    · by_cases hq : k' = key <;> simp [updateAssoc, lookupAssoc, hk, hq, ih, h', h]

theorem shouldProcess_eq_true_iff (st : ConsumerState) (ev : MarketEventIn) (now : ℚ) :
    shouldProcessEvent st ev now = true ↔
      (minChangePercent ≤ |ev.changePercent| ∧ minVolumeThreshold ≤ ev.volume ∧
        ∀ last, lookupAssoc st.recentlyProcessed ev.symbol = some last →
          dedupWindow ≤ now - last) := by
  unfold shouldProcessEvent
  rcases hl : lookupAssoc st.recentlyProcessed ev.symbol with _ | last
  · dsimp only
    split_ifs with h1 h2
    · simp only [Bool.false_eq_true, false_iff]
      rintro ⟨ha, -, -⟩
      exact absurd ha (not_le.mpr h1)
    · simp only [Bool.false_eq_true, false_iff]
      rintro ⟨-, hb, -⟩
      exact absurd hb (not_le.mpr h2)
    · simp only [true_iff]
      exact ⟨not_lt.mp h1, not_lt.mp h2, fun l hl' => by cases hl'⟩
  · dsimp only
    split_ifs with h1 h2 h3
    · simp only [Bool.false_eq_true, false_iff]
      rintro ⟨ha, -, -⟩
      exact absurd ha (not_le.mpr h1)
    · simp only [Bool.false_eq_true, false_iff]
      rintro ⟨-, hb, -⟩
      exact absurd hb (not_le.mpr h2)
    · simp only [Bool.false_eq_true, false_iff]
      rintro ⟨-, -, hc⟩
      exact absurd (hc last rfl) (not_le.mpr h3)
    · simp only [true_iff]
      refine ⟨not_lt.mp h1, not_lt.mp h2, fun l hl' => ?_⟩
      injection hl' with e
      subst e
      exact not_lt.mp h3

/-! ## Claim theorems -/

/-- C4 counterexample: with the symbol recorded exactly 30 minutes (1800
seconds) before the check, the gate admits the event, while the claim,
which requires the last-processed instant to be MORE than 30 minutes in
the past, says it must be rejected, so the claimed equivalence fails at
this input. -/
theorem gate_admission_boundary_cex :
    ¬ (shouldProcessEvent ⟨0, 0, none, [("AAPL", 0)]⟩ ⟨"AAPL", 150, 5, 100000⟩ 1800 = true ↔
        (minChangePercent ≤ |(5 : ℚ)| ∧ minVolumeThreshold ≤ (100000 : ℤ) ∧
          ∀ last, lookupAssoc [("AAPL", (0 : ℚ))] "AAPL" = some last →
            dedupWindow < 1800 - last)) := by
  intro hiff
  have h1 : shouldProcessEvent ⟨0, 0, none, [("AAPL", 0)]⟩ ⟨"AAPL", 150, 5, 100000⟩ 1800 = true := by
    with_unfolding_all rfl
  have h2 := (hiff.mp h1).2.2 0 rfl
  norm_num [dedupWindow] at h2

/-- C4 (amended): the gate admits exactly when the absolute change
reaches min_change_percent, the volume reaches min_volume_threshold, and
the symbol is either absent from the dedup map or was recorded at least
(not strictly more than) dedup_window seconds before the check; in
particular, with the symbol recorded at t, an attempt at t1 is admitted
exactly when the thresholds hold and at least the window has elapsed, so
a second attempt inside the window is rejected and one after it passes. -/
theorem gate_admission_characterization (st : ConsumerState) (ev : MarketEventIn) (now : ℚ) :
    (shouldProcessEvent st ev now = true ↔
      (minChangePercent ≤ |ev.changePercent| ∧ minVolumeThreshold ≤ ev.volume ∧
        ∀ last, lookupAssoc st.recentlyProcessed ev.symbol = some last →
          dedupWindow ≤ now - last))
  ∧ (∀ t t1, shouldProcessEvent
        { st with recentlyProcessed := updateAssoc st.recentlyProcessed ev.symbol t } ev t1 = true ↔
      (minChangePercent ≤ |ev.changePercent| ∧ minVolumeThreshold ≤ ev.volume ∧
        dedupWindow ≤ t1 - t)) := by
  refine ⟨shouldProcess_eq_true_iff st ev now, fun t t1 => ?_⟩
  rw [shouldProcess_eq_true_iff]
  constructor
  · rintro ⟨ha, hb, hc⟩
    refine ⟨ha, hb, hc t ?_⟩
    exact lookupAssoc_updateAssoc_self st.recentlyProcessed ev.symbol t
  · rintro ⟨ha, hb, hc⟩
    refine ⟨ha, hb, fun l hl => ?_⟩
    rw [lookupAssoc_updateAssoc_self st.recentlyProcessed ev.symbol t] at hl
    injection hl with e
    subst e
    exact hc

/-- C4 witness: a fresh symbol with change 5 percent and volume 100000
is admitted at any instant. -/
theorem gate_admission_characterization_witness :
    shouldProcessEvent ⟨0, 0, none, []⟩ ⟨"AAPL", 150, 5, 100000⟩ 0 = true :=
  (gate_admission_characterization ⟨0, 0, none, []⟩ ⟨"AAPL", 150, 5, 100000⟩ 0).1.mpr
    ⟨by norm_num [minChangePercent], by norm_num [minVolumeThreshold],
     fun l hl => by cases hl⟩

/-- C8: a gate-rejected event is silent and leaves the state untouched:
the step returns the unchanged state, the fetcher is not invoked and no
payload is handed to publish; moreover the processed counter moves only
for an event that passed the gate with a non-empty fetch result. -/
theorem gate_rejection_frame (st : ConsumerState) (ev : MarketEventIn) (tm : StepTimes)
    (newsArticles : List NewsData) (pubOutcome : Option Nat) :
    (shouldProcessEvent st ev tm.tGate = false →
      processMarketEvent st ev tm newsArticles pubOutcome = ⟨st, false, none⟩)
  ∧ ((processMarketEvent st ev tm newsArticles pubOutcome).state.processedCount ≠
        st.processedCount →
      shouldProcessEvent st ev tm.tGate = true ∧ newsArticles ≠ []) := by
  constructor
  · intro h
    simp [processMarketEvent, h]
  · intro h
    cases hg : shouldProcessEvent st ev tm.tGate with
    | false =>
      exfalso
      apply h
      simp [processMarketEvent, hg]
    | true =>
      refine ⟨rfl, ?_⟩
      rintro rfl
      apply h
      simp [processMarketEvent, hg]

/-- C8 witness: the spec example, volume 10 below the 50000 threshold,
leaves the fresh consumer state unchanged with no fetch and no publish. -/
theorem gate_rejection_frame_witness :
    processMarketEvent ⟨0, 0, none, []⟩ ⟨"AAPL", 150, 8, 10⟩ ⟨0, 0, 0, 0⟩ [] none =
      ⟨⟨0, 0, none, []⟩, false, none⟩ :=
  (gate_rejection_frame ⟨0, 0, none, []⟩ ⟨"AAPL", 150, 8, 10⟩ ⟨0, 0, 0, 0⟩ [] none).1
    (by with_unfolding_all rfl)

/-- C1 counterexample: a qualifying event whose publish reaches the bus
but is delivered to zero subscribers.  The payload was handed to publish,
yet the published counter stays at zero and no dedup timestamp is
recorded, contradicting the claim that a zero-subscriber outcome is
counted as delivered exactly like a publish with subscribers present. -/
theorem zero_subscriber_not_counted_cex :
    (processMarketEvent ⟨0, 0, none, []⟩ ⟨"AAPL", 150, 8, 500000⟩ ⟨1000, 1001, 1001, 1001⟩
        [⟨"surge", "", "", 0, ""⟩] (some 0)).publishedPayload.isSome = true
  ∧ (processMarketEvent ⟨0, 0, none, []⟩ ⟨"AAPL", 150, 8, 500000⟩ ⟨1000, 1001, 1001, 1001⟩
        [⟨"surge", "", "", 0, ""⟩] (some 0)).state.publishedCount = 0
  ∧ (processMarketEvent ⟨0, 0, none, []⟩ ⟨"AAPL", 150, 8, 500000⟩ ⟨1000, 1001, 1001, 1001⟩
        [⟨"surge", "", "", 0, ""⟩] (some 0)).state.recentlyProcessed = [] := by
  refine ⟨?_, ?_, ?_⟩ <;> with_unfolding_all rfl

/-- C1 (amended): when publish reports zero delivered subscribers it
returns false, so the consumer treats the publish as failed: the
published counter is not incremented and no dedup timestamp is recorded;
the event is still counted as processed and the last-processed time is
updated, and the payload was handed to the bus. -/
theorem zero_subscriber_publish_skips_record (st : ConsumerState) (ev : MarketEventIn)
    (tm : StepTimes) (newsArticles : List NewsData) (a : NewsAlertModel)
    (hgate : shouldProcessEvent st ev tm.tGate = true)
    (hart : newsArticles.isEmpty = false)
    (halert : buildAlert ev tm.tNow newsArticles = some a) :
    processMarketEvent st ev tm newsArticles (some 0) =
      ⟨{ st with processedCount := st.processedCount + 1
                 lastProcessedTime := some tm.tNow }, true, some a⟩ := by
  simp [processMarketEvent, hgate, hart, halert, pubSuccess]

/-- C1 witness: the zero-subscriber outcome on a concrete qualifying
event with one positive article. -/
theorem zero_subscriber_publish_skips_record_witness :
    processMarketEvent ⟨0, 0, none, []⟩ ⟨"AAPL", 150, 8, 500000⟩ ⟨1000, 1001, 1001, 1001⟩
        [⟨"surge", "", "", 0, ""⟩] (some 0) =
      ⟨⟨1, 0, some 1001, []⟩, true,
       some ⟨"AAPL", 150, 8, 1, "📈 1 positive news articles. Key topics: surge", 1001⟩⟩ :=
  zero_subscriber_publish_skips_record ⟨0, 0, none, []⟩ ⟨"AAPL", 150, 8, 500000⟩
    ⟨1000, 1001, 1001, 1001⟩ [⟨"surge", "", "", 0, ""⟩]
    ⟨"AAPL", 150, 8, 1, "📈 1 positive news articles. Key topics: surge", 1001⟩
    (by with_unfolding_all rfl) (by with_unfolding_all rfl) (by with_unfolding_all rfl)

/-- C10: when publish returns false, either because the redis call
raised (outcome none) or because the bus delivered to zero subscribers,
the published counter and the dedup map are left unchanged while the
processed counter is incremented and the last-processed time updated,
and the gate still admits a redelivered copy of the same event. -/
theorem publish_failure_retryable (st : ConsumerState) (ev : MarketEventIn)
    (tm : StepTimes) (newsArticles : List NewsData) (pubOutcome : Option Nat)
    (a : NewsAlertModel)
    (hgate : shouldProcessEvent st ev tm.tGate = true)
    (hart : newsArticles.isEmpty = false)
    (halert : buildAlert ev tm.tNow newsArticles = some a)
    (hpub : pubSuccess pubOutcome = false) :
    (processMarketEvent st ev tm newsArticles pubOutcome).state.publishedCount =
      st.publishedCount
  ∧ (processMarketEvent st ev tm newsArticles pubOutcome).state.recentlyProcessed =
      st.recentlyProcessed
  ∧ (processMarketEvent st ev tm newsArticles pubOutcome).state.processedCount =
      st.processedCount + 1
  ∧ (processMarketEvent st ev tm newsArticles pubOutcome).state.lastProcessedTime =
      some tm.tNow
  ∧ shouldProcessEvent (processMarketEvent st ev tm newsArticles pubOutcome).state ev
      tm.tGate = true := by
  have hres : processMarketEvent st ev tm newsArticles pubOutcome =
      ⟨{ st with processedCount := st.processedCount + 1
                 lastProcessedTime := some tm.tNow }, true, some a⟩ := by
    simp [processMarketEvent, hgate, hart, halert, hpub]
  rw [hres]
  refine ⟨rfl, rfl, rfl, rfl, ?_⟩
  rw [show shouldProcessEvent
      ({ st with processedCount := st.processedCount + 1
                 lastProcessedTime := some tm.tNow } : ConsumerState) ev tm.tGate =
      shouldProcessEvent st ev tm.tGate from rfl]
  exact hgate

/-- C10 witness: a concrete qualifying event whose publish raised. -/
theorem publish_failure_retryable_witness :
    (processMarketEvent ⟨0, 0, none, []⟩ ⟨"AAPL", 150, 8, 500000⟩ ⟨1000, 1001, 1001, 1001⟩
        [⟨"surge", "", "", 0, ""⟩] none).state.publishedCount = 0
  ∧ (processMarketEvent ⟨0, 0, none, []⟩ ⟨"AAPL", 150, 8, 500000⟩ ⟨1000, 1001, 1001, 1001⟩
        [⟨"surge", "", "", 0, ""⟩] none).state.recentlyProcessed = []
  ∧ (processMarketEvent ⟨0, 0, none, []⟩ ⟨"AAPL", 150, 8, 500000⟩ ⟨1000, 1001, 1001, 1001⟩
        [⟨"surge", "", "", 0, ""⟩] none).state.processedCount = 0 + 1
  ∧ (processMarketEvent ⟨0, 0, none, []⟩ ⟨"AAPL", 150, 8, 500000⟩ ⟨1000, 1001, 1001, 1001⟩
        [⟨"surge", "", "", 0, ""⟩] none).state.lastProcessedTime = some 1001
  ∧ shouldProcessEvent (processMarketEvent ⟨0, 0, none, []⟩ ⟨"AAPL", 150, 8, 500000⟩
        ⟨1000, 1001, 1001, 1001⟩ [⟨"surge", "", "", 0, ""⟩] none).state
        ⟨"AAPL", 150, 8, 500000⟩ 1000 = true :=
  publish_failure_retryable ⟨0, 0, none, []⟩ ⟨"AAPL", 150, 8, 500000⟩
    ⟨1000, 1001, 1001, 1001⟩ [⟨"surge", "", "", 0, ""⟩] none
    ⟨"AAPL", 150, 8, 1, "📈 1 positive news articles. Key topics: surge", 1001⟩
    (by with_unfolding_all rfl) (by with_unfolding_all rfl) (by with_unfolding_all rfl) rfl

/-- C2: the pydantic NewsAlert model of shared/models.py bounds
news_sentiment below by zero and declares neither news_count nor
top_headlines, contradicting both the outbound schema of the spec and
the keyword arguments the consumer passes.  On a qualifying event whose
single article reads crash, the aggregate sentiment is -1, building the
model raises, and the consumer publishes nothing and leaves its state
unchanged even though subscribers are present; and the constructor
rejects any negative sentiment outright. -/
theorem news_alert_model_rejects_negative_sentiment :
    processMarketEvent ⟨0, 0, none, []⟩ ⟨"AAPL", 150, 8, 500000⟩ ⟨1000, 1001, 1001, 1001⟩
        [⟨"crash", "", "", 0, ""⟩] (some 5) = ⟨⟨0, 0, none, []⟩, true, none⟩
  ∧ (analyzeNewsSentiment [⟨"crash", "", "", 0, ""⟩]).sentimentScore = -1
  ∧ mkNewsAlert "AAPL" 150 8 (-1) "x" 0 1 ["crash"] = none := by
  refine ⟨?_, ?_, ?_⟩ <;> with_unfolding_all rfl

/-- C6: on a cache miss, a failed provider interaction (network failure,
non-success status or unreadable body) makes get_company_news return the
empty list instead of raising, and a successful response is parsed from
at most its first 10 raw items, each unparseable item being skipped
individually, so the result never exceeds 10 articles. -/
theorem company_news_failure_spec (st : FetcherState) (symbol : String) (now : ℚ)
    (hmiss : lookupAssoc st.newsCache (getCacheKey symbol "company_news" now) = none) :
    (getCompanyNews st symbol now (.error ())).articles = []
  ∧ ∀ items : List RawItem,
      ((getCompanyNews st symbol now (.ok items)).articles = (items.take 10).filterMap id
      ∧ (getCompanyNews st symbol now (.ok items)).articles.length ≤ 10) := by
  refine ⟨by simp [getCompanyNews, hmiss], fun items => ⟨by simp [getCompanyNews, hmiss], ?_⟩⟩
  have h1 : (getCompanyNews st symbol now (.ok items)).articles =
      (items.take 10).filterMap id := by
    simp [getCompanyNews, hmiss]
  rw [h1]
  calc ((items.take 10).filterMap id).length ≤ (items.take 10).length :=
        List.length_filterMap_le id (items.take 10)
    _ ≤ 10 := List.length_take_le 10 items

/-- C6 witness: a concrete failed fetch on a fresh client returns []. -/
theorem company_news_failure_spec_witness :
    (getCompanyNews ⟨[], 0, 0, 0⟩ "AAPL" 50 (.error ())).articles = [] :=
  (company_news_failure_spec ⟨[], 0, 0, 0⟩ "AAPL" 50 rfl).1

/-- C7: with the first fetch a cache miss, a second fetch for the same
symbol and category whose instant falls in the same 5 minute TTL bucket
returns exactly the first result from the cache with no outbound request,
no counted call and no rate-limit wait, so the pair issues exactly one
provider call; a third fetch falling in a different bucket (hence a
different key, assumed uncached) issues a second call. -/
theorem cache_bucket_single_call (st : FetcherState) (symbol : String) (t1 t2 t3 : ℚ)
    (items1 items3 : List RawItem) (resp2 : Except Unit (List RawItem))
    (r1 r2 r3 : FetchResult)
    (hr1 : r1 = getCompanyNews st symbol t1 (.ok items1))
    (hr2 : r2 = getCompanyNews r1.state symbol t2 resp2)
    (hr3 : r3 = getCompanyNews r2.state symbol t3 (.ok items3))
    (h1 : lookupAssoc st.newsCache (getCacheKey symbol "company_news" t1) = none)
    (hsame : (t2 / cacheTTL).floor = (t1 / cacheTTL).floor)
    (h3 : lookupAssoc st.newsCache (getCacheKey symbol "company_news" t3) = none)
    (hne : getCacheKey symbol "company_news" t3 ≠ getCacheKey symbol "company_news" t1) :
    r1.requestIssued = true
  ∧ r1.state.apiCallsCount = st.apiCallsCount + 1
  ∧ r2.articles = r1.articles
  ∧ r2.requestIssued = false
  ∧ r2.waited = 0
  ∧ r2.state.apiCallsCount = st.apiCallsCount + 1
  ∧ r3.requestIssued = true
  ∧ r3.state.apiCallsCount = st.apiCallsCount + 2 := by
  have hkey : getCacheKey symbol "company_news" t2 = getCacheKey symbol "company_news" t1 := by
    unfold getCacheKey
    rw [hsame]
  have e1 : r1 = ⟨(items1.take 10).filterMap id,
      { st with lastCallTime := (rateLimit st.lastCallTime t1).2
                apiCallsCount := st.apiCallsCount + 1
                newsCache := updateAssoc st.newsCache (getCacheKey symbol "company_news" t1)
                  ((items1.take 10).filterMap id) },
      true, (rateLimit st.lastCallTime t1).1⟩ := by
    rw [hr1]
    simp [getCompanyNews, h1]
  have hlook2 : lookupAssoc r1.state.newsCache (getCacheKey symbol "company_news" t2) =
      some ((items1.take 10).filterMap id) := by
    rw [e1, hkey]
    exact lookupAssoc_updateAssoc_self st.newsCache _ _
  have e2 : r2 = ⟨(items1.take 10).filterMap id,
      { r1.state with cacheHits := r1.state.cacheHits + 1 }, false, 0⟩ := by
    rw [hr2]
    simp [getCompanyNews, hlook2]
  have hlook3 : lookupAssoc r2.state.newsCache (getCacheKey symbol "company_news" t3) = none := by
    rw [e2]
    show lookupAssoc r1.state.newsCache _ = none
    rw [e1]
    show lookupAssoc (updateAssoc st.newsCache _ _) _ = none
    rw [lookupAssoc_updateAssoc_ne st.newsCache _ _ _ hne]
    exact h3
  have e3 : r3.requestIssued = true ∧ r3.state.apiCallsCount = r2.state.apiCallsCount + 1 := by
    rw [hr3]
    simp [getCompanyNews, hlook3]
  refine ⟨by rw [e1], by rw [e1], by rw [e2, e1], by rw [e2], by rw [e2], ?_, e3.1, ?_⟩
  · rw [e2, e1]
  · rw [e3.2, e2, e1]

/-- C7 witness: two fetches at instants 0 and 100 share bucket 0 and a
third at instant 300 falls in bucket 1, on a fresh client. -/
theorem cache_bucket_single_call_witness :
    (getCompanyNews ⟨[], 0, 0, 0⟩ "AAPL" 0 (.ok [])).requestIssued = true
  ∧ (getCompanyNews ⟨[], 0, 0, 0⟩ "AAPL" 0 (.ok [])).state.apiCallsCount = 0 + 1
  ∧ (getCompanyNews (getCompanyNews ⟨[], 0, 0, 0⟩ "AAPL" 0 (.ok [])).state "AAPL" 100
        (.error ())).articles = (getCompanyNews ⟨[], 0, 0, 0⟩ "AAPL" 0 (.ok [])).articles
  ∧ (getCompanyNews (getCompanyNews ⟨[], 0, 0, 0⟩ "AAPL" 0 (.ok [])).state "AAPL" 100
        (.error ())).requestIssued = false
  ∧ (getCompanyNews (getCompanyNews ⟨[], 0, 0, 0⟩ "AAPL" 0 (.ok [])).state "AAPL" 100
        (.error ())).waited = 0
  ∧ (getCompanyNews (getCompanyNews ⟨[], 0, 0, 0⟩ "AAPL" 0 (.ok [])).state "AAPL" 100
        (.error ())).state.apiCallsCount = 0 + 1
  ∧ (getCompanyNews (getCompanyNews (getCompanyNews ⟨[], 0, 0, 0⟩ "AAPL" 0
        (.ok [])).state "AAPL" 100 (.error ())).state "AAPL" 300 (.ok [])).requestIssued = true
  ∧ (getCompanyNews (getCompanyNews (getCompanyNews ⟨[], 0, 0, 0⟩ "AAPL" 0
        (.ok [])).state "AAPL" 100 (.error ())).state "AAPL" 300
        (.ok [])).state.apiCallsCount = 0 + 2 :=
  cache_bucket_single_call ⟨[], 0, 0, 0⟩ "AAPL" 0 100 300 [] [] (.error ()) _ _ _
    rfl rfl rfl rfl (by with_unfolding_all rfl) rfl (by with_unfolding_all decide)

/-- The minimum spacing of consecutive fire instants produced by the
rate limiter. -/
theorem rateLimit_gap (lastCall now : ℚ) :
    lastCall + minCallInterval ≤ (rateLimit lastCall now).2 := by
  unfold rateLimit
  split_ifs with h
  · show lastCall + minCallInterval ≤ now + (minCallInterval - (now - lastCall))
    linarith
  · show lastCall + minCallInterval ≤ now
    linarith [not_lt.mp h]

/-- Consecutive fire instants of a call sequence through the shared
limiter are at least the minimum interval apart. -/
theorem runCalls_chain (lastCall : ℚ) (ts : List ℚ) :
    List.Chain' (fun a b => a + minCallInterval ≤ b) (runCalls lastCall ts) := by
  induction ts generalizing lastCall with
  | nil => simp [runCalls]
  | cons t ts ih =>
    cases ts with
    | nil => simp [runCalls]
    | cons t2 ts2 =>
      have h := ih (rateLimit lastCall t).2
      simp only [runCalls] at h ⊢
      exact List.chain'_cons.mpr ⟨rateLimit_gap _ _, h⟩

/-- From pairwise spacing to the aggregate lower bound on the span. -/
theorem chain_last_bound : ∀ (l : List ℚ) (x y : ℚ),
    List.Chain' (fun a b => a + minCallInterval ≤ b) (x :: l) →
    (x :: l).getLast? = some y → x + (l.length : ℚ) * minCallInterval ≤ y := by
  intro l
  induction l with
  | nil =>
    intro x y _ hy
    simp only [List.getLast?_singleton, Option.some.injEq] at hy
    subst hy
    simp
  | cons b l ih =>
    intro x y hc hy
    rw [List.chain'_cons] at hc
    have h2 := ih b y hc.2 (by simpa using hy)
    have hx : x + minCallInterval ≤ b := hc.1
    have hexp : (((b :: l).length : ℚ)) * minCallInterval =
        (l.length : ℚ) * minCallInterval + minCallInterval := by
      simp only [List.length_cons]
      push_cast
      ring
    rw [hexp]
    linarith

/-- C9: the rate limiter is one shared gate.  Fire instants of any call
sequence are spaced by at least min_call_interval, so the span of a run
of N calls is at least (N - 1) times the interval; and on a cache miss
both fetch methods advance the one shared last-call clock through the
same rateLimit computation, sleeping exactly what it prescribes. -/
theorem rate_limit_spacing (lastCall : ℚ) (ts : List ℚ) :
    List.Chain' (fun a b => a + minCallInterval ≤ b) (runCalls lastCall ts)
  ∧ (∀ (x y : ℚ) (l1 : List ℚ), runCalls lastCall ts = x :: l1 →
      (x :: l1).getLast? = some y → x + (l1.length : ℚ) * minCallInterval ≤ y)
  ∧ (∀ (st : FetcherState) (symbol : String) (now : ℚ)
        (resp : Except Unit (List RawItem)),
      lookupAssoc st.newsCache (getCacheKey symbol "company_news" now) = none →
      ((getCompanyNews st symbol now resp).state.lastCallTime =
          (rateLimit st.lastCallTime now).2
      ∧ (getCompanyNews st symbol now resp).waited = (rateLimit st.lastCallTime now).1))
  ∧ (∀ (st : FetcherState) (category : String) (limit : Nat) (now : ℚ)
        (resp : Except Unit (List RawItem)),
      lookupAssoc st.newsCache (getCacheKey "market" category now) = none →
      ((getMarketNews st category limit now resp).state.lastCallTime =
          (rateLimit st.lastCallTime now).2
      ∧ (getMarketNews st category limit now resp).waited =
          (rateLimit st.lastCallTime now).1)) := by
  refine ⟨runCalls_chain lastCall ts, ?_, ?_, ?_⟩
  · intro x y l1 heq hy
    have hchain := runCalls_chain lastCall ts
    rw [heq] at hchain
    exact chain_last_bound l1 x y hchain hy
  · intro st symbol now resp hmiss
    cases resp <;> constructor <;> simp [getCompanyNews, hmiss]
  · intro st category limit now resp hmiss
    cases resp <;> constructor <;> simp [getMarketNews, hmiss]

/-- C9 witness: a concrete cache-missing fetch advances the shared
last-call clock exactly as the rate limiter prescribes. -/
theorem rate_limit_spacing_witness :
    (getCompanyNews ⟨[], 0, 0, 0⟩ "AAPL" 50 (.error ())).state.lastCallTime =
      (rateLimit 0 50).2
  ∧ (getCompanyNews ⟨[], 0, 0, 0⟩ "AAPL" 50 (.error ())).waited = (rateLimit 0 50).1 :=
  (rate_limit_spacing 0 []).2.2.1 ⟨[], 0, 0, 0⟩ "AAPL" 50 (.error ()) rfl

/-- The accumulated integer score of the word loop is the sum of the
weights of the tokens, unmatched tokens contributing zero. -/
theorem scoreFold_fst (ws : List String) (acc : Int × List (String × Nat)) :
    (scoreFold ws acc).1 = acc.1 + (ws.map (fun w => (wordScore w).getD 0)).sum := by
  induction ws generalizing acc with
  | nil => simp [scoreFold]
  | cons w ws ih =>
    cases h : wordScore w with
    | none => simp [scoreFold, h, ih]
    | some s =>
      simp only [scoreFold, h, ih, List.map_cons, List.sum_cons, Option.getD_some]
      ring

/-- Bumping a count keeps every key of the Counter in the lexicon. -/
theorem bumpCount_keys (m : List (String × Nat)) (w : String)
    (hw : wordScore w ≠ none) :
    (∀ p ∈ m, wordScore p.1 ≠ none) → ∀ p ∈ bumpCount m w, wordScore p.1 ≠ none := by
  induction m with
  | nil =>
    intro _ p hp
    simp only [bumpCount, List.mem_singleton] at hp
    subst hp
    exact hw
  | cons q rest ih =>
    obtain ⟨k, c⟩ := q
    intro hm p hp
    by_cases h : k = w
    · subst h
      rw [bumpCount, if_pos rfl] at hp
      rcases List.mem_cons.mp hp with hp | hp
      · subst hp
        exact hw
      · exact hm p (List.mem_cons_of_mem _ hp)
    · rw [bumpCount, if_neg h] at hp
      rcases List.mem_cons.mp hp with hp | hp
      · subst hp
        exact hm (k, c) (List.mem_cons_self _ _)
      · exact ih (fun q hq => hm q (List.mem_cons_of_mem _ hq)) p hp

/-- Every key of the matched-word Counter produced by the word loop is
in the lexicon. -/
theorem scoreFold_counts (ws : List String) (acc : Int × List (String × Nat))
    (hacc : ∀ p ∈ acc.2, wordScore p.1 ≠ none) :
    ∀ p ∈ (scoreFold ws acc).2, wordScore p.1 ≠ none := by
  induction ws generalizing acc with
  | nil => simpa [scoreFold] using hacc
  | cons w ws ih =>
    cases h : wordScore w with
    | none =>
      simp only [scoreFold, h]
      exact ih acc hacc
    | some s =>
      simp only [scoreFold, h]
      exact ih _ (bumpCount_keys acc.2 w (by rw [h]; exact Option.some_ne_none s) hacc)

/-- The normalized score as a closed formula over the token list. -/
theorem calculateSentimentScore_fst (text : String) :
    (calculateSentimentScore text).1 =
      (if (pySplit text).length = 0 then 0
       else pyClamp ((((pySplit text).map (fun w => (wordScore w).getD 0)).sum : ℚ) /
          ((pySplit text).length : ℚ) * 10)) := by
  unfold calculateSentimentScore
  by_cases h : (pySplit text).length = 0
  · simp [h]
  · have hpos : 0 < (pySplit text).length := Nat.pos_of_ne_zero h
    simp only [hpos, if_true, h, if_false]
    rw [scoreFold_fst]
    norm_num

/-- The matched-word Counter is the one produced by the word loop in
both branches of the length test. -/
theorem calculateSentimentScore_snd (text : String) :
    (calculateSentimentScore text).2 = (scoreFold (pySplit text) (0, [])).2 := by
  unfold calculateSentimentScore
  by_cases h : 0 < (pySplit text).length <;> simp [h]

/-- C3: for every input text, the score is the sum of the signed lexicon
weights of its tokens (unmatched tokens contributing zero and not
counted), divided by the token count, scaled by 10 and clamped to
[-1, 1]; an input with zero tokens yields score 0 with an empty count
map; a text with no lexicon match scores exactly 0; and every counted
word is a lexicon member. -/
theorem score_matches_spec (text : String) :
    (scoreText text).1 =
      (if (tokensOf text).length = 0 then 0
       else pyClamp ((((tokensOf text).map (fun w => (wordScore w).getD 0)).sum : ℚ) /
          ((tokensOf text).length : ℚ) * 10))
  ∧ (tokensOf text = [] → scoreText text = (0, []))
  ∧ ((∀ w ∈ tokensOf text, wordScore w = none) → (scoreText text).1 = 0)
  ∧ (∀ p ∈ (scoreText text).2, wordScore p.1 ≠ none) := by
  refine ⟨calculateSentimentScore_fst (cleanText text), ?_, ?_, ?_⟩
  · intro h
    unfold scoreText calculateSentimentScore
    rw [show pySplit (cleanText text) = tokensOf text from rfl, h]
    rfl
  · intro h
    have hsum : ((tokensOf text).map (fun w => (wordScore w).getD 0)).sum = 0 := by
      apply List.sum_eq_zero
      intro x hx
      obtain ⟨w, hw, rfl⟩ := List.mem_map.mp hx
      simp [h w hw]
    show (calculateSentimentScore (cleanText text)).1 = 0
    rw [calculateSentimentScore_fst (cleanText text)]
    rw [show pySplit (cleanText text) = tokensOf text from rfl, hsum]
    by_cases hlen : (tokensOf text).length = 0
    · simp [hlen]
    · simp only [hlen, if_false]
      norm_num [pyClamp]
  · have hs : (scoreText text).2 = (scoreFold (tokensOf text) (0, [])).2 :=
      calculateSentimentScore_snd (cleanText text)
    rw [hs]
    exact scoreFold_counts (tokensOf text) (0, []) (by simp)

/-- C3 witness: a text with only digits has no tokens and scores zero
with an empty count map. -/
theorem score_matches_spec_witness : scoreText "123" = (0, []) :=
  (score_matches_spec "123").2.1 (by with_unfolding_all rfl)

/-- The batch loop accumulates the sum of the per-article scores. -/
theorem batchFold_totalScore (l : List NewsData) (acc : BatchAcc) :
    (batchFold l acc).totalScore = acc.totalScore + (l.map perArticleScore).sum := by
  induction l generalizing acc with
  | nil => simp [batchFold]
  | cons a l ih =>
    simp only [batchFold, batchStep, ih, List.map_cons, List.sum_cons]
    ring

/-- The batch loop appends the per-article scores in order. -/
theorem batchFold_scores (l : List NewsData) (acc : BatchAcc) :
    (batchFold l acc).articleScores = acc.articleScores ++ l.map perArticleScore := by
  induction l generalizing acc with
  | nil => simp [batchFold]
  | cons a l ih => simp [batchFold, batchStep, ih]

/-- The positive counter counts articles with score above 0.1. -/
theorem batchFold_pos (l : List NewsData) (acc : BatchAcc) :
    (batchFold l acc).positiveCount =
      acc.positiveCount + l.countP (fun a => decide (1 / 10 < perArticleScore a)) := by
  induction l generalizing acc with
  | nil => simp [batchFold]
  | cons a l ih =>
    simp only [batchFold, batchStep, ih, List.countP_cons]
    by_cases h : 1 / 10 < perArticleScore a
    · rw [if_pos h, if_pos (by simp only [decide_eq_true_eq]; exact h)]
      omega
    · rw [if_neg h, if_neg (by simp only [decide_eq_true_eq]; exact h)]
      omega

/-- The negative counter counts articles with score below -0.1. -/
theorem batchFold_neg (l : List NewsData) (acc : BatchAcc) :
    (batchFold l acc).negativeCount =
      acc.negativeCount + l.countP (fun a => decide (perArticleScore a < -(1 / 10))) := by
  induction l generalizing acc with
  | nil => simp [batchFold]
  | cons a l ih =>
    simp only [batchFold, batchStep, ih, List.countP_cons]
    by_cases h1 : 1 / 10 < perArticleScore a
    · have h2 : ¬ perArticleScore a < -(1 / 10) := by linarith
      rw [if_pos h1, if_neg (by simp only [decide_eq_true_eq]; exact h2)]
      omega
    · by_cases h2 : perArticleScore a < -(1 / 10)
      · rw [if_neg h1, if_pos h2, if_pos (by simp only [decide_eq_true_eq]; exact h2)]
        omega
      · rw [if_neg h1, if_neg h2, if_neg (by simp only [decide_eq_true_eq]; exact h2)]
        omega

/-- The neutral counter counts articles with score in [-0.1, 0.1]. -/
theorem batchFold_neu (l : List NewsData) (acc : BatchAcc) :
    (batchFold l acc).neutralCount =
      acc.neutralCount + l.countP (fun a =>
        decide (-(1 / 10) ≤ perArticleScore a ∧ perArticleScore a ≤ 1 / 10)) := by
  induction l generalizing acc with
  | nil => simp [batchFold]
  | cons a l ih =>
    simp only [batchFold, batchStep, ih, List.countP_cons]
    by_cases h1 : 1 / 10 < perArticleScore a
    · have h3 : ¬ (-(1 / 10) ≤ perArticleScore a ∧ perArticleScore a ≤ 1 / 10) :=
        fun hc => absurd hc.2 (not_le.mpr h1)
      rw [if_pos h1, if_neg (by simp only [decide_eq_true_eq]; exact h3)]
      omega
    · by_cases h2 : perArticleScore a < -(1 / 10)
      · have h3 : ¬ (-(1 / 10) ≤ perArticleScore a ∧ perArticleScore a ≤ 1 / 10) :=
          fun hc => absurd hc.1 (not_le.mpr h2)
        rw [if_neg h1, if_pos h2, if_neg (by simp only [decide_eq_true_eq]; exact h3)]
        omega
      · have h3 : -(1 / 10) ≤ perArticleScore a ∧ perArticleScore a ≤ 1 / 10 :=
          ⟨not_lt.mp h2, not_lt.mp h1⟩
        rw [if_neg h1, if_neg h2, if_pos (by simp only [decide_eq_true_eq]; exact h3)]
        omega

/-- The three classification counters partition the article list. -/
theorem classify_partition (l : List NewsData) :
    l.countP (fun a => decide (1 / 10 < perArticleScore a))
  + l.countP (fun a => decide (perArticleScore a < -(1 / 10)))
  + l.countP (fun a =>
      decide (-(1 / 10) ≤ perArticleScore a ∧ perArticleScore a ≤ 1 / 10)) = l.length := by
  induction l with
  | nil => simp
  | cons a l ih =>
    simp only [List.countP_cons, List.length_cons]
    by_cases h1 : 1 / 10 < perArticleScore a
    · have h2 : ¬ perArticleScore a < -(1 / 10) := by linarith
      have h3 : ¬ (-(1 / 10) ≤ perArticleScore a ∧ perArticleScore a ≤ 1 / 10) :=
        fun hc => absurd hc.2 (not_le.mpr h1)
      rw [if_pos (by simp only [decide_eq_true_eq]; exact h1), if_neg (by simp only [decide_eq_true_eq]; exact h2),
        if_neg (by simp only [decide_eq_true_eq]; exact h3)]
      omega
    · by_cases h2 : perArticleScore a < -(1 / 10)
      · have h3 : ¬ (-(1 / 10) ≤ perArticleScore a ∧ perArticleScore a ≤ 1 / 10) :=
          fun hc => absurd hc.1 (not_le.mpr h2)
        rw [if_neg (by simp only [decide_eq_true_eq]; exact h1), if_pos (by simp only [decide_eq_true_eq]; exact h2),
          if_neg (by simp only [decide_eq_true_eq]; exact h3)]
        omega
      · have h3 : -(1 / 10) ≤ perArticleScore a ∧ perArticleScore a ≤ 1 / 10 :=
          ⟨not_lt.mp h2, not_lt.mp h1⟩
        rw [if_neg (by simp only [decide_eq_true_eq]; exact h1), if_neg (by simp only [decide_eq_true_eq]; exact h2),
          if_pos (by simp only [decide_eq_true_eq]; exact h3)]
        omega

/-- C5 counterexample: a single article whose text has 12 tokens and one
matched word scores 5/6, so the average of the scores is 5/6, yet the
returned aggregate score is the 3-decimal rounding 0.833, refuting the
claim that the aggregate score equals sum(scores)/count exactly. -/
theorem aggregate_score_rounded_cex :
    (analyzeNewsSentiment [⟨"gain", "a a a a a a a a a a a", "", 0, ""⟩]).sentimentScore ≠
      batchAvg [⟨"gain", "a a a a a a a a a a a", "", 0, ""⟩] := by
  with_unfolding_all decide

/-- C5 (amended): analyzeBatch classifies each article positive above
0.1, negative below -0.1, else neutral, the three counters partitioning
the batch; the returned aggregate score is sum(scores)/count ROUNDED
half-to-even to 3 decimal places, the label thresholds 0.2 and -0.2
being applied to the unrounded average; the returned confidence is
max(0, 1 - population variance) likewise rounded to 3 decimals; and the
empty batch returns the fixed zero/neutral/empty result. -/
theorem analyze_batch_spec (newsArticles : List NewsData) :
    analyzeNewsSentiment [] = ⟨0, "neutral", 0, 0, 0, 0, [], 0⟩
  ∧ (newsArticles ≠ [] →
      ((analyzeNewsSentiment newsArticles).articleCount = newsArticles.length
      ∧ (analyzeNewsSentiment newsArticles).positiveArticles =
          newsArticles.countP (fun a => decide (1 / 10 < perArticleScore a))
      ∧ (analyzeNewsSentiment newsArticles).negativeArticles =
          newsArticles.countP (fun a => decide (perArticleScore a < -(1 / 10)))
      ∧ (analyzeNewsSentiment newsArticles).neutralArticles =
          newsArticles.countP (fun a =>
            decide (-(1 / 10) ≤ perArticleScore a ∧ perArticleScore a ≤ 1 / 10))
      ∧ (analyzeNewsSentiment newsArticles).positiveArticles +
          (analyzeNewsSentiment newsArticles).negativeArticles +
          (analyzeNewsSentiment newsArticles).neutralArticles = newsArticles.length
      ∧ (analyzeNewsSentiment newsArticles).sentimentScore = round3 (batchAvg newsArticles)
      ∧ (analyzeNewsSentiment newsArticles).sentimentLabel =
          (if 1 / 5 < batchAvg newsArticles then "positive"
           else if batchAvg newsArticles < -(1 / 5) then "negative" else "neutral")
      ∧ (analyzeNewsSentiment newsArticles).confidence =
          round3 (max 0 (1 - batchVariance newsArticles)))) := by
  constructor
  · rfl
  · intro hne
    have hE : newsArticles.isEmpty = false := by
      cases newsArticles with
      | nil => exact absurd rfl hne
      | cons a l => rfl
    unfold analyzeNewsSentiment
    rw [hE]
    simp only [Bool.false_eq_true, if_false]
    rw [batchFold_totalScore, batchFold_scores, batchFold_pos, batchFold_neg, batchFold_neu]
    simp only [zero_add, List.nil_append, List.length_map]
    refine ⟨?_, ?_, ?_, ?_, ?_, ?_, ?_, ?_⟩ <;>
      first
        | trivial
        | exact classify_partition newsArticles

/-- C5 witness: the single surge article has count 1 and the rounded
average as its aggregate score. -/
theorem analyze_batch_spec_witness :
    (analyzeNewsSentiment [⟨"surge", "", "", 0, ""⟩]).articleCount = 1
  ∧ (analyzeNewsSentiment [⟨"surge", "", "", 0, ""⟩]).sentimentScore =
      round3 (batchAvg [⟨"surge", "", "", 0, ""⟩]) :=
  ⟨(List.length_singleton _) ▸
      ((analyze_batch_spec [⟨"surge", "", "", 0, ""⟩]).2 (by simp)).1,
   ((analyze_batch_spec [⟨"surge", "", "", 0, ""⟩]).2 (by simp)).2.2.2.2.2.1⟩

end PubsubTry
